import Mathlib

/-!
Verification development for the AWX workflow evaluation engine and API
field adapters.

The repository provides `awx/api/fields.py` (modelled directly) and the
functional test suite `awx/main/tests/functional/models/test_workflow.py`
for the workflow DAG engine.  The engine implementation itself
(`awx/main/scheduler/dag_workflow.py`, `awx/main/models/workflow.py`) is
not part of the sources, so its operations are modelled from the
specification's description of the five components (graph builder, DNR
propagator, readiness evaluator, completion/failure analyzer,
artifact/ancestor merger), with the functional tests pinning concrete
behaviour where they speak.
-/

namespace Awx

/-- A JSON-like value as stored in `extra_vars` / `artifacts` mappings. -/
inductive JVal where
  | str (s : String)
  | num (n : Int)
deriving DecidableEq, Repr

/-- A Python-dict-like mapping: association list keyed by strings,
insertion ordered, keys unique in well-formed data. -/
abbrev VarMap := List (String × JVal)

/-- Writing `d[k] = v` on a Python dict represented as an
insertion-ordered association list: an existing key is updated in place,
a new key is appended at the end. -/
def setKey : VarMap → String → JVal → VarMap
  | [], k, v => [(k, v)]
  | (a, b) :: d, k, v => if a = k then (k, v) :: d else (a, b) :: setKey d k v

/-- Python `d.update(u)`: every key of `u` is
written into `d`, values of `u` winning on conflicts. -/
def dictUpdate (d u : VarMap) : VarMap :=
  u.foldl (fun acc kv => setKey acc kv.1 kv.2) d

/-- Status of a spawned unified job. -/
inductive JobStatus where
  | new
  | pending
  | waiting
  | running
  | successful
  | failed
  | error
  | canceled
deriving DecidableEq, Repr

/-- Terminal job statuses: successful / failed / error / canceled. -/
def JobStatus.isTerminal : JobStatus → Bool
  | .successful => true
  | .failed => true
  | .error => true
  | .canceled => true
  | _ => false

/-- Statuses counting as an unsuccessful outcome: failed / error / canceled. -/
def JobStatus.isFailureOutcome : JobStatus → Bool
  | .failed => true
  | .error => true
  | .canceled => true
  | _ => false

/-- A spawned job as seen by the engine: status, produced artifacts and a
finish timestamp (abstracted to a natural number). -/
structure Job where
  status : JobStatus
  artifacts : VarMap
  finished : Nat
deriving DecidableEq, Repr

/-- Modelled from the spec: a WorkflowNode — one vertex bound to a
workflow run, with an optional spawned job, a launch-template reference
that may be missing, and accumulated `ancestor_artifacts`.
(`awx.main.models.workflow.WorkflowJobNode` is not among the sources.) -/
structure WNode where
  id : Nat
  job : Option Job
  hasTemplate : Bool
  ancestor_artifacts : VarMap
deriving DecidableEq, Repr

/-- The three edge kinds of the workflow graph. -/
inductive EdgeKind where
  | success
  | failure
  | always
deriving DecidableEq, Repr

/-- Modelled from the spec: the in-memory directed graph produced by the
graph builder (`WorkflowDAG._init_graph` is not among the sources):
a node table plus one edge table per edge kind, edges as
(source id, target id) pairs. -/
structure WGraph where
  nodes : List WNode
  successEdges : List (Nat × Nat)
  failureEdges : List (Nat × Nat)
  alwaysEdges : List (Nat × Nat)
deriving DecidableEq, Repr

/-- All incoming edges of node `t`, as (kind, source id) pairs. -/
def incoming (g : WGraph) (t : Nat) : List (EdgeKind × Nat) :=
  (g.successEdges.filter (fun e => e.2 = t)).map (fun e => (EdgeKind.success, e.1)) ++
  (g.failureEdges.filter (fun e => e.2 = t)).map (fun e => (EdgeKind.failure, e.1)) ++
  (g.alwaysEdges.filter (fun e => e.2 = t)).map (fun e => (EdgeKind.always, e.1))

/-- All outgoing edge targets of node `s`, across the three kinds. -/
def outgoingTargets (g : WGraph) (s : Nat) : List Nat :=
  (g.successEdges.filter (fun e => e.1 = s)).map (fun e => e.2) ++
  (g.failureEdges.filter (fun e => e.1 = s)).map (fun e => e.2) ++
  (g.alwaysEdges.filter (fun e => e.1 = s)).map (fun e => e.2)

/-- Look up a node record by id. -/
def findNode (g : WGraph) (i : Nat) : Option WNode :=
  g.nodes.find? (fun n => n.id = i)

/-- Job status of the node with id `i`, when that node exists and has a job. -/
def jobStatusOf (g : WGraph) (i : Nat) : Option JobStatus :=
  match findNode g i with
  | some n => n.job.map (fun j => j.status)
  | none => none

/-- Modelled from the spec: when an incoming edge can no longer fire.
A success edge is dead if its source finished with a non-success terminal
status or is marked DNR; a failure edge is dead if its source finished
successfully or is marked DNR; an always edge is dead only if its source
is marked DNR. -/
def edgeDead (g : WGraph) (dnr : List Nat) : EdgeKind × Nat → Bool
  | (.success, s) =>
      dnr.contains s ||
        (match jobStatusOf g s with
         | some st => st.isTerminal && !(st = JobStatus.successful)
         | none => false)
  | (.failure, s) => dnr.contains s || (jobStatusOf g s = some JobStatus.successful)
  | (.always, s) => dnr.contains s

/-- Modelled from the spec: a node is marked DNR when it has no job yet,
is not already marked, has at least one incoming edge, and every incoming
edge is dead. -/
def nodeShouldDnr (g : WGraph) (dnr : List Nat) (n : WNode) : Bool :=
  n.job.isNone && !dnr.contains n.id &&
    !(incoming g n.id).isEmpty && (incoming g n.id).all (edgeDead g dnr)

/-- One propagation pass: ids of all nodes newly marked given the current
DNR set. -/
def dnrPass (g : WGraph) (dnr : List Nat) : List Nat :=
  (g.nodes.filter (nodeShouldDnr g dnr)).map (fun n => n.id)

/-- Iterate propagation passes to a fixed point; the fuel is bounded by
the node count since each productive pass marks at least one new node. -/
def dnrFix (g : WGraph) : Nat → List Nat → List Nat
  | 0, dnr => dnr
  | fuel + 1, dnr =>
      let nw := dnrPass g dnr
      if nw.isEmpty then dnr else dnrFix g fuel (dnr ++ nw)

/-- The full DNR set reached from the initially marked set `dnr0`. -/
def fullDnr (g : WGraph) (dnr0 : List Nat) : List Nat :=
  dnrFix g g.nodes.length dnr0

/-- Modelled from the spec: `WorkflowDAG.mark_dnr_nodes` — propagate the
do-not-run marking to a fixed point and return the nodes newly marked in
this invocation. -/
def mark_dnr_nodes (g : WGraph) (dnr0 : List Nat) : List Nat :=
  (fullDnr g dnr0).filter (fun i => !dnr0.contains i)

/-- Modelled from the spec: `WorkflowDAG.is_workflow_done` — every node is
either marked DNR, or has a job in a terminal state, or has no launch
template. -/
def is_workflow_done (g : WGraph) (dnr : List Nat) : Bool :=
  g.nodes.all (fun n =>
    dnr.contains n.id ||
      (match n.job with
       | some j => j.status.isTerminal
       | none => false) ||
      !n.hasTemplate)

/-- A leaf node: no outgoing edges, or only DNR successors. -/
def nodeLeaf (g : WGraph) (dnr : List Nat) (n : WNode) : Bool :=
  (outgoingTargets g n.id).all (fun t => dnr.contains t)

/-- The structural-failure reason string, as asserted by the functional
test for a relaunched workflow whose templates were deleted. -/
def missingMsg (i : Nat) : String :=
  "Workflow job node " ++ toString i ++ " related unified job template missing"

/-- Modelled from the spec: `WorkflowDAG.has_workflow_failed` — a missing
launch template is a structural failure reported with a reason string
naming the node; otherwise the workflow is failed with a null reason when
it is done and some executed leaf node ended in failure/error/canceled. -/
def has_workflow_failed (g : WGraph) (dnr : List Nat) : Bool × Option String :=
  match g.nodes.find? (fun n => !n.hasTemplate) with
  | some n => (true, some (missingMsg n.id))
  | none =>
      if is_workflow_done g dnr &&
          g.nodes.any (fun n =>
            nodeLeaf g dnr n &&
              (match n.job with
               | some j => j.status.isFailureOutcome
               | none => false)) then
        (true, none)
      else
        (false, none)

/-- A job with the given status, no artifacts, finish time 0. -/
def plainJob (st : JobStatus) : Job :=
  { status := st, artifacts := [], finished := 0 }

/-- A node with a launch template, no accumulated artifacts. -/
def plainNode (i : Nat) (j : Option Job) : WNode :=
  { id := i, job := j, hasTemplate := true, ancestor_artifacts := [] }

/-- The five-node graph of the functional tests, with node 0 failed and
nodes 3 and 4 finished successfully:
edges 0-success->1, 1-success->2, 0-failure->3, 3-failure->4. -/
def failureBranchGraph : WGraph :=
  { nodes := [plainNode 0 (some (plainJob .failed)), plainNode 1 none, plainNode 2 none,
              plainNode 3 (some (plainJob .successful)), plainNode 4 (some (plainJob .successful))]
    successEdges := [(0, 1), (1, 2)]
    failureEdges := [(0, 3), (3, 4)]
    alwaysEdges := [] }

/-- A batch query issued while building the in-memory graph. -/
inductive DagQuery where
  | nodesQuery
  | edgesQuery (kind : EdgeKind)
deriving DecidableEq, Repr

/-- Modelled from the spec: the batch queries issued by
`WorkflowDAG._init_graph` (not among the sources) — one query for the
run's nodes, then one per edge kind among success, failure, always,
issued regardless of whether edges of that kind are present, as pinned by
`test_build_WFJT_dag`. -/
def init_graph_queries (g : WGraph) : List DagQuery :=
  match g with
  | _ => [DagQuery.nodesQuery, DagQuery.edgesQuery .success,
          DagQuery.edgesQuery .failure, DagQuery.edgesQuery .always]

/-- The number of distinct edge kinds actually present in the graph. -/
def kindsPresent (g : WGraph) : Nat :=
  (if g.successEdges.isEmpty then 0 else 1) +
  (if g.failureEdges.isEmpty then 0 else 1) +
  (if g.alwaysEdges.isEmpty then 0 else 1)

/-- Direct predecessor ids of node `i` (the same edge storage read in the
parent direction). -/
def parentIds (g : WGraph) (i : Nat) : List Nat :=
  (incoming g i).map (fun e => e.2)

/-- Ids of the graph's nodes. -/
def nodeIds (g : WGraph) : List Nat :=
  g.nodes.map (fun n => n.id)

/-- Modelled from the spec: the backward ancestor walk of the
artifact/ancestor merger — an explicit worklist with a visited set of node
identifiers, never revisiting a node, so cyclic or self-referencing data
terminates. Returns the accumulated visited list. -/
def ancestorWalk (g : WGraph) (worklist visited : List Nat) : List Nat :=
  match worklist with
  | [] => visited
  | i :: rest =>
      if h : i ∈ visited ∨ i ∉ nodeIds g then
        ancestorWalk g rest visited
      else
        ancestorWalk g (parentIds g i ++ rest) (i :: visited)
termination_by (((nodeIds g).toFinset \ visited.toFinset).card, worklist.length)
decreasing_by
  · exact Prod.Lex.right _ (Nat.lt_succ_self _)
  · apply Prod.Lex.left
    rw [List.toFinset_cons, Finset.sdiff_insert]
    apply Finset.card_erase_lt_of_mem
    rw [Finset.mem_sdiff, List.mem_toFinset, List.mem_toFinset]
    rw [not_or, not_not] at h
    exact ⟨h.2, h.1⟩

/-- The ancestor set of node `i`: every node reachable backward from `i`,
with `i` itself excluded from its own ancestor computation. -/
def ancestors (g : WGraph) (i : Nat) : List Nat :=
  (ancestorWalk g (parentIds g i) [i]).erase i

/-- Modelled from the spec: the set of persisted workflow runs with their
parent-run linkage (a run launched as a node of a parent run) and their
workflow templates. -/
structure RunEnv where
  runs : List Nat
  parentOf : Nat → Option Nat
  templateOf : Nat → Option Nat

/-- Walk parent runs outward, collecting their templates; stop (returning
the partial list) on a missing parent, a missing template, a revisited
run, or an unknown run id. -/
def ancestorRunWalk (env : RunEnv) (visited : List Nat) (cur : Option Nat) : List Nat :=
  match cur with
  | none => []
  | some wj =>
      match env.templateOf wj with
      | none => []
      | some t =>
          if h : wj ∈ visited ∨ wj ∉ env.runs then []
          else t :: ancestorRunWalk env (wj :: visited) (env.parentOf wj)
termination_by (env.runs.toFinset \ visited.toFinset).card
decreasing_by
  rw [List.toFinset_cons, Finset.sdiff_insert]
  apply Finset.card_erase_lt_of_mem
  rw [Finset.mem_sdiff, List.mem_toFinset, List.mem_toFinset]
  rw [not_or, not_not] at h
  exact ⟨h.2, h.1⟩

/-- Modelled from the spec: `WorkflowJob.get_ancestor_workflows` (not among
the sources) — the ordered list of ancestor workflow templates, immediate
parent first, stopping rather than looping when a cycle is detected. -/
def get_ancestor_workflows (env : RunEnv) (s : Nat) : List Nat :=
  ancestorRunWalk env [s] (env.parentOf s)

/-- Modelled from the spec: the artifact-inheritance step of
`WorkflowJobNode.get_job_kwargs` (not among the sources) — for each
predecessor whose job completed, merge the predecessor's accumulated
`ancestor_artifacts` first, then the predecessor job's own artifacts, in
that order. -/
def inheritedArtifacts (parents : List WNode) : VarMap :=
  parents.foldl
    (fun acc p =>
      match p.job with
      | some j =>
          if j.status.isTerminal then
            dictUpdate (dictUpdate acc p.ancestor_artifacts) j.artifacts
          else acc
      | none => acc)
    []

/-- Modelled from the spec: the `extra_vars` a queued node receives in
`get_job_kwargs` — run-level variables, node-level variables and the
inherited ancestor artifacts merged, the artifacts merged last. -/
def get_job_kwargs_extra_vars (wfjVars nodeVars : VarMap) (parents : List WNode) : VarMap :=
  dictUpdate (dictUpdate wfjVars nodeVars) (inheritedArtifacts parents)

/-- Terminal leaf jobs of the run: jobs of leaf nodes that reached a
terminal status. -/
def leafJobs (g : WGraph) (dnr : List Nat) : List Job :=
  ((g.nodes.filter (fun n => nodeLeaf g dnr n)).filterMap (fun n => n.job)).filter
    (fun j => j.status.isTerminal)

/-- Modelled from the spec: `WorkflowJob.get_effective_artifacts` (not
among the sources) — union of the terminal leaf jobs' artifacts, merged in
ascending order of finish time so that a later-finished job wins
conflicts. -/
def get_effective_artifacts (g : WGraph) (dnr : List Nat) : VarMap :=
  ((leafJobs g dnr).mergeSort (fun a b => a.finished ≤ b.finished)).foldl
    (fun acc j => dictUpdate acc j.artifacts) []

/-- A credential: its credential type and its own identity. -/
structure Cred where
  ctype : Nat
  cid : Nat
deriving DecidableEq, Repr

/-- The launch prompts carried at run level or node level. -/
structure Prompts where
  extra_vars : VarMap
  limit : Option String
  job_tags : Option String
  labels : List Nat
  credentials : List Cred
  instance_groups : List Nat
deriving DecidableEq, Repr

/-- Credential merge: run-level credentials displace node-level
credentials of the same credential type; node credentials of other types
are kept. -/
def mergeCredentials (nodeCreds wjCreds : List Cred) : List Cred :=
  nodeCreds.filter (fun c => !wjCreds.any (fun w => w.ctype = c.ctype)) ++ wjCreds

/-- Modelled from the spec: the combination of run-level and node-level
launch prompts inside `get_job_kwargs` (not among the sources), with the
precedence pinned by `test_combine_prompts_WFJT_to_node` where that test
speaks: extra_vars union the two levels; a run-supplied limit overrides
the node-level one; tags keep node-level precedence (the spec's stated
precedence — no test exercises tags); run-level credentials displace
same-type node credentials; run-level instance groups replace node-level
ones when supplied; and run-level labels are not applied at all when the
node defines its own labels. -/
def combine_prompts (wj node : Prompts) : Prompts :=
  { extra_vars := dictUpdate node.extra_vars wj.extra_vars
    limit := match wj.limit with | some l => some l | none => node.limit
    job_tags := match node.job_tags with | some t => some t | none => wj.job_tags
    labels := if node.labels.isEmpty then wj.labels else node.labels
    credentials := mergeCredentials node.credentials wj.credentials
    instance_groups :=
      if wj.instance_groups.isEmpty then node.instance_groups else wj.instance_groups }

/-- The node-level prompts of `test_combine_prompts_WFJT_to_node`:
credential type 0 is the common type, label ids 1 and 2, instance group 0
is the common group. -/
def nodePromptsEx : Prompts :=
  { extra_vars := [("node_key", JVal.str "node_val")]
    limit := some "node_limit"
    job_tags := none
    labels := [1, 2]
    credentials := [{ ctype := 1, cid := 1 }, { ctype := 0, cid := 2 }]
    instance_groups := [0, 10] }

/-- The run-level prompts of `test_combine_prompts_WFJT_to_node` after the
workflow job is given prompts of its own. -/
def wjPromptsEx : Prompts :=
  { extra_vars := [("wj_key", JVal.str "wj_val")]
    limit := some "wj_limit"
    job_tags := none
    labels := [3, 4]
    credentials := [{ ctype := 2, cid := 3 }, { ctype := 0, cid := 4 }]
    instance_groups := [20, 0] }

/-- The `VerbatimField.to_internal_value` method of `awx/api/fields.py`:
a field that passes the value
through without changes. -/
def VerbatimField.to_internal_value (data : α) : α := data

/-- The `VerbatimField.to_representation` method of `awx/api/fields.py`. -/
def VerbatimField.to_representation (value : α) : α := value

/-- Model of the Django REST Framework base
`Field.validate_empty_values` restricted to the inputs the adapters see:
a null input fails validation unless `allow_null`, in which case it
short-circuits as an empty value; any other input proceeds to coercion. -/
def fieldValidateEmptyValues (allow_null : Bool) (data : Option String) :
    Except String (Bool × Option String) :=
  match data with
  | none => if allow_null then Except.ok (true, none) else Except.error "null"
  | some s => Except.ok (false, some s)

/-- The `NullFieldMixin.validate_empty_values` method of
`awx/api/fields.py`: when
the base class reports a null input as an empty value, report it as
not-empty instead so that coercion still runs. -/
def NullFieldMixin.validate_empty_values (allow_null : Bool) (data : Option String) :
    Except String (Bool × Option String) :=
  match fieldValidateEmptyValues allow_null data with
  | Except.ok (is_empty_value, d) =>
      if is_empty_value && d.isNone then Except.ok (false, d)
      else Except.ok (is_empty_value, d)
  | Except.error e => Except.error e

/-- Python `data or ''` on an optional string. -/
def pyOrEmptyString : Option String → String
  | none => ""
  | some s => if s = "" then "" else s

/-- Model of the Django REST Framework `CharField.to_internal_value`:
string coercion (the configurable whitespace trimming is not modelled;
it is the identity on the inputs considered here). -/
def charFieldToInternalValue (s : String) : String := s

/-- The `CharNullField.to_internal_value` method of `awx/api/fields.py`:
`super().to_internal_value(data or '')`. -/
def CharNullField.to_internal_value (data : Option String) : String :=
  charFieldToInternalValue (pyOrEmptyString data)

/-- The `CharNullField` constructor forces `allow_null` to true. -/
def CharNullField.allow_null : Bool := true

/-- Last-occurrence lookup in an association list: the binding a sequence
of Python dict writes would leave in place. -/
def lastLookup : VarMap → String → Option JVal
  | [], _ => none
  | (a, b) :: rest, k =>
      match lastLookup rest k with
      | some v => some v
      | none => if a = k then some b else none

/-- The last job of the list whose artifacts contain the key. -/
def lastJobWith : List Job → String → Option Job
  | [], _ => none
  | j :: rest, k =>
      match lastJobWith rest k with
      | some r => some r
      | none => if (j.artifacts.lookup k).isSome then some j else none

/-- A two-node graph with a self-referencing edge on node 0 — the toxic
data of `test_workflow_ancestors_recursion_prevention`'s sibling test for
the artifact walk. -/
def selfLoopGraph : WGraph :=
  { nodes := [plainNode 0 none, plainNode 1 none]
    successEdges := [(0, 0), (1, 0)]
    failureEdges := []
    alwaysEdges := [] }

/-- A run environment in which run 7 is its own parent (self-nesting
toxic data). -/
def selfEnv : RunEnv :=
  { runs := [7], parentOf := fun _ => some 7, templateOf := fun _ => some 99 }

/-- The completed job of `test_inherit_ancestor_artifacts_from_job`,
producing artifacts `{b: 43}`. -/
def artifactJobEx : Job :=
  { status := .successful, artifacts := [("b", JVal.num 43)], finished := 0 }

/-- The completed predecessor of `test_inherit_ancestor_artifacts_from_job`:
accumulated ancestor artifacts `{a: 42}`, job artifacts `{b: 43}`. -/
def artifactParentEx : WNode :=
  { id := 0
    job := some artifactJobEx
    hasTemplate := true
    ancestor_artifacts := [("a", JVal.num 42)] }

/-- The earlier-finished leaf job of `test_precedence_based_on_time`. -/
def earlierLeafJobEx : Job :=
  { status := .successful, artifacts := [("foooo", JVal.str "bar")], finished := 1 }

/-- The later-finished leaf job of `test_precedence_based_on_time`. -/
def laterLeafJobEx : Job :=
  { status := .successful, artifacts := [("foooo", JVal.str "zoo")], finished := 2 }

/-- Two disconnected leaf nodes whose jobs both wrote key `foooo`, the
second finishing later — the data of `test_precedence_based_on_time`. -/
def twoLeafGraph : WGraph :=
  { nodes := [plainNode 0 (some earlierLeafJobEx), plainNode 1 (some laterLeafJobEx)]
    successEdges := []
    failureEdges := []
    alwaysEdges := [] }

/-- A node whose launch template has been deleted. -/
def templatelessNode (i : Nat) : WNode :=
  { id := i, job := none, hasTemplate := false, ancestor_artifacts := [] }

/-- The relaunched five-node workflow of `test_workflow_done` after every
job template was deleted: no node has a job or a template. -/
def relaunchedGraph : WGraph :=
  { nodes := [templatelessNode 0, templatelessNode 1, templatelessNode 2,
              templatelessNode 3, templatelessNode 4]
    successEdges := [(0, 1), (1, 2)]
    failureEdges := [(0, 3), (3, 4)]
    alwaysEdges := [] }

end Awx
namespace Awx

theorem lookup_cons (a : String) (b : JVal) (tl : VarMap) (k' : String) :
    List.lookup k' ((a, b) :: tl) = if k' = a then some b else List.lookup k' tl := by
  rw [List.lookup]
  by_cases h : k' = a
  · simp [h]
  · simp [h, beq_eq_false_iff_ne.mpr h]

theorem lookup_setKey (d : VarMap) (k : String) (v : JVal) (k' : String) :
    (setKey d k v).lookup k' = if k' = k then some v else d.lookup k' := by
  induction d with
  | nil => simp [setKey, lookup_cons]
  | cons hd tl ih =>
      obtain ⟨a, b⟩ := hd
      by_cases hak : a = k
      · subst hak
        have e1 : setKey ((a, b) :: tl) a v = (a, v) :: tl := by simp [setKey]
        rw [e1, lookup_cons, lookup_cons]
        by_cases h : k' = a <;> simp [h]
      · have e1 : setKey ((a, b) :: tl) k v = (a, b) :: setKey tl k v := by
          simp [setKey, hak]
        rw [e1, lookup_cons, ih, lookup_cons]
        by_cases h1 : k' = a
        · have h2 : ¬ k' = k := fun hh => hak (h1.symm.trans hh)
          simp only [if_pos h1, if_neg h2]
        · by_cases h2 : k' = k
          · simp only [if_neg h1, if_pos h2]
          · simp only [if_neg h1, if_neg h2]

theorem dictUpdate_cons (d : VarMap) (a : String) (b : JVal) (u : VarMap) :
    dictUpdate d ((a, b) :: u) = dictUpdate (setKey d a b) u := rfl

theorem lookup_dictUpdate (d u : VarMap) (k : String) :
    (dictUpdate d u).lookup k =
      match lastLookup u k with
      | some v => some v
      | none => d.lookup k := by
  induction u generalizing d with
  | nil => simp [dictUpdate, lastLookup]
  | cons hd u ih =>
      obtain ⟨a, b⟩ := hd
      rw [dictUpdate_cons, ih, lastLookup]
      cases hl : lastLookup u k with
      | some v => simp
      | none =>
          rw [lookup_setKey]
          by_cases hka : a = k
          · simp [hka]
          · have h2 : ¬ k = a := fun hh => hka hh.symm
            simp [hka, h2]

theorem lastLookup_isSome (u : VarMap) (k : String) :
    (lastLookup u k).isSome = (u.lookup k).isSome := by
  induction u with
  | nil => rfl
  | cons hd u ih =>
      obtain ⟨a, b⟩ := hd
      rw [lastLookup, lookup_cons]
      cases hl : lastLookup u k with
      | some v =>
          rw [hl] at ih
          by_cases h2 : k = a <;> simp [h2, ← ih]
      | none =>
          rw [hl] at ih
          by_cases h : a = k
          · simp [h, ← ih]
          · have h2 : ¬ k = a := fun hh => h hh.symm
            simp [h, h2, ← ih]

theorem lookup_eq_none_of_not_mem_keys (u : VarMap) (k : String)
    (h : k ∉ u.map Prod.fst) : u.lookup k = none := by
  induction u with
  | nil => rfl
  | cons hd u ih =>
      obtain ⟨a, b⟩ := hd
      simp only [List.map_cons, List.mem_cons] at h
      push_neg at h
      rw [lookup_cons, if_neg h.1]
      exact ih h.2

theorem lastLookup_eq_lookup (u : VarMap) (k : String)
    (h : (u.map Prod.fst).Nodup) : lastLookup u k = u.lookup k := by
  induction u with
  | nil => rfl
  | cons hd u ih =>
      obtain ⟨a, b⟩ := hd
      simp only [List.map_cons, List.nodup_cons] at h
      rw [lastLookup, lookup_cons, ih h.2]
      by_cases hk : k = a
      · subst hk
        rw [lookup_eq_none_of_not_mem_keys u k h.1]
      · have hk2 : ¬ a = k := fun hh => hk hh.symm
        cases hl : u.lookup k <;> simp [hk, hk2]

theorem mem_keys_setKey (d : VarMap) (k : String) (v : JVal) (x : String) :
    x ∈ (setKey d k v).map Prod.fst ↔ x ∈ d.map Prod.fst ∨ x = k := by
  induction d with
  | nil => simp [setKey]
  | cons hd d ih =>
      obtain ⟨a, b⟩ := hd
      by_cases hak : a = k
      · subst hak
        have e1 : setKey ((a, b) :: d) a v = (a, v) :: d := by simp [setKey]
        rw [e1]
        simp only [List.map_cons, List.mem_cons]
        tauto
      · have e1 : setKey ((a, b) :: d) k v = (a, b) :: setKey d k v := by
          simp [setKey, hak]
        rw [e1]
        simp only [List.map_cons, List.mem_cons, ih]
        tauto

theorem nodupKeys_setKey (d : VarMap) (k : String) (v : JVal)
    (h : (d.map Prod.fst).Nodup) : ((setKey d k v).map Prod.fst).Nodup := by
  induction d with
  | nil => simp [setKey]
  | cons hd d ih =>
      obtain ⟨a, b⟩ := hd
      simp only [List.map_cons, List.nodup_cons] at h
      by_cases hak : a = k
      · subst hak
        have e1 : setKey ((a, b) :: d) a v = (a, v) :: d := by simp [setKey]
        rw [e1]
        simp only [List.map_cons, List.nodup_cons]
        exact ⟨h.1, h.2⟩
      · have e1 : setKey ((a, b) :: d) k v = (a, b) :: setKey d k v := by
          simp [setKey, hak]
        rw [e1]
        simp only [List.map_cons, List.nodup_cons]
        refine ⟨?_, ih h.2⟩
        rw [mem_keys_setKey]
        rintro (h1 | h1)
        · exact h.1 h1
        · exact hak h1

theorem nodupKeys_dictUpdate (d u : VarMap) (h : (d.map Prod.fst).Nodup) :
    ((dictUpdate d u).map Prod.fst).Nodup := by
  induction u generalizing d with
  | nil => exact h
  | cons hd u ih =>
      obtain ⟨a, b⟩ := hd
      rw [dictUpdate_cons]
      exact ih _ (nodupKeys_setKey _ _ _ h)

theorem lookup_artifact_foldl (l : List Job) (init : VarMap) (k : String) :
    (l.foldl (fun acc j => dictUpdate acc j.artifacts) init).lookup k =
      match lastJobWith l k with
      | some j => lastLookup j.artifacts k
      | none => init.lookup k := by
  induction l generalizing init with
  | nil => rfl
  | cons j l ih =>
      rw [List.foldl_cons, ih, lastJobWith]
      cases hl : lastJobWith l k with
      | some r => simp
      | none =>
          rw [lookup_dictUpdate]
          cases hj : lastLookup j.artifacts k with
          | some v =>
              have hs : (j.artifacts.lookup k).isSome = true := by
                rw [← lastLookup_isSome, hj]; rfl
              simp [hs, hj]
          | none =>
              have hs : (j.artifacts.lookup k).isSome = false := by
                rw [← lastLookup_isSome, hj]; rfl
              simp [hs, hj]

theorem lastJobWith_mem (l : List Job) (k : String) (j : Job)
    (h : lastJobWith l k = some j) : j ∈ l ∧ (j.artifacts.lookup k).isSome = true := by
  induction l with
  | nil => simp [lastJobWith] at h
  | cons x l ih =>
      rw [lastJobWith] at h
      cases hl : lastJobWith l k with
      | some r =>
          rw [hl] at h
          injection h with h
          subst h
          exact ⟨List.mem_cons_of_mem _ (ih hl).1, (ih hl).2⟩
      | none =>
          rw [hl] at h
          by_cases hx : (x.artifacts.lookup k).isSome
          · rw [if_pos hx] at h
            injection h with h
            subst h
            exact ⟨List.mem_cons_self _ _, hx⟩
          · rw [if_neg hx] at h
            exact absurd h (by simp)

theorem lastJobWith_isSome (l : List Job) (k : String) (j : Job)
    (hmem : j ∈ l) (hk : (j.artifacts.lookup k).isSome = true) :
    (lastJobWith l k).isSome = true := by
  induction l with
  | nil => simp at hmem
  | cons x l ih =>
      rw [lastJobWith]
      cases hl : lastJobWith l k with
      | some r => rfl
      | none =>
          rcases List.mem_cons.mp hmem with rfl | hmem2
          · rw [if_pos hk]; rfl
          · have := ih hmem2
            rw [hl] at this
            simp at this

theorem lastJobWith_split (l : List Job) (k : String) (j : Job)
    (h : lastJobWith l k = some j) :
    ∃ l1 l2, l = l1 ++ j :: l2 ∧ ∀ r ∈ l2, (r.artifacts.lookup k).isSome = false := by
  induction l with
  | nil => simp [lastJobWith] at h
  | cons x l ih =>
      rw [lastJobWith] at h
      cases hl : lastJobWith l k with
      | some r =>
          rw [hl] at h
          injection h with h
          subst h
          obtain ⟨l1, l2, hsplit, hall⟩ := ih hl
          exact ⟨x :: l1, l2, by rw [hsplit]; rfl, hall⟩
      | none =>
          rw [hl] at h
          by_cases hx : (x.artifacts.lookup k).isSome
          · rw [if_pos hx] at h
            injection h with h
            subst h
            refine ⟨[], l, rfl, ?_⟩
            intro r hr
            by_contra hc
            have hr2 : (r.artifacts.lookup k).isSome = true := by
              cases hb : (r.artifacts.lookup k).isSome
              · exact absurd hb hc
              · rfl
            have := lastJobWith_isSome l k r hr hr2
            rw [hl] at this
            simp at this
          · rw [if_neg hx] at h
            exact absurd h (by simp)

end Awx
namespace Awx

theorem mem_dnrFix (g : WGraph) :
    ∀ (fuel : Nat) (dnr : List Nat) (i : Nat),
      i ∈ dnrFix g fuel dnr → i ∈ dnr ∨ incoming g i ≠ [] := by
  intro fuel
  induction fuel with
  | zero => intro dnr i h; exact Or.inl h
  | succ fuel ih =>
      intro dnr i h
      rw [dnrFix] at h
      by_cases hemp : (dnrPass g dnr).isEmpty
      · rw [if_pos hemp] at h
        exact Or.inl h
      · rw [if_neg hemp] at h
        rcases ih _ i h with h1 | h1
        · rcases List.mem_append.mp h1 with h2 | h2
          · exact Or.inl h2
          · right
            simp only [dnrPass, List.mem_map, List.mem_filter] at h2
            obtain ⟨n, ⟨hmem, hdnr⟩, hid⟩ := h2
            simp only [nodeShouldDnr, Bool.and_eq_true] at hdnr
            have hne : (incoming g n.id).isEmpty = false := by
              rcases hdnr with ⟨⟨⟨hj, hd2⟩, hd3⟩, hd4⟩
              simpa using hd3
            rw [← hid]
            intro hcon
            rw [hcon] at hne
            simp at hne
        · exact Or.inr h1

theorem ancestorWalk_nodup (g : WGraph) (wl visited : List Nat) :
    visited.Nodup → (ancestorWalk g wl visited).Nodup := by
  induction wl, visited using ancestorWalk.induct g with
  | case1 visited =>
      intro h
      rw [ancestorWalk]
      exact h
  | case2 visited i rest hcond ih =>
      intro h
      rw [ancestorWalk, dif_pos hcond]
      exact ih h
  | case3 visited i rest hcond ih =>
      intro h
      rw [ancestorWalk, dif_neg hcond]
      rw [not_or, not_not] at hcond
      exact ih (List.nodup_cons.mpr ⟨hcond.1, h⟩)

end Awx
namespace Awx

/-- C1: In the five-node workflow graph (0-success->1, 1-success->2,
0-failure->3, 3-failure->4) where node 0's job finished failed and the
jobs of nodes 3 and 4 finished successfully while nodes 1 and 2 never
ran, `mark_dnr_nodes` marks exactly nodes 1 and 2, `is_workflow_done`
holds, and `has_workflow_failed` returns (false, none). -/
theorem failure_branch_dnr_done_not_failed :
    (mark_dnr_nodes failureBranchGraph []).toFinset = ({1, 2} : Finset Nat) ∧
    is_workflow_done failureBranchGraph (fullDnr failureBranchGraph []) = true ∧
    has_workflow_failed failureBranchGraph (fullDnr failureBranchGraph []) = (false, none) := by
  decide

/-- C2 (counterexample): on the five-node test graph only two edge kinds
are present, yet graph loading issues 4 queries, not 1 + 2 — the claimed
"1 + (number of distinct edge kinds present)" count is false. -/
theorem init_graph_query_count_counterexample :
    (init_graph_queries failureBranchGraph).length ≠ 1 + kindsPresent failureBranchGraph := by
  decide

/-- C2 (amended): for every workflow graph, building the in-memory graph
issues exactly 4 batch queries — one for the nodes and one per edge kind
in the fixed set {success, failure, always} — independent of the number
of nodes and of which edge kinds are actually present. -/
theorem init_graph_query_count_constant (g : WGraph) :
    (init_graph_queries g).length = 4 ∧
    (init_graph_queries g).count DagQuery.nodesQuery = 1 ∧
    ∀ k : EdgeKind, (init_graph_queries g).count (DagQuery.edgesQuery k) = 1 := by
  refine ⟨rfl, rfl, fun k => ?_⟩
  cases k <;> rfl

/-- C3: when every node of a (nonempty) run is missing its launch
template, `has_workflow_failed` reports failure with a reason string
naming an offending node's missing template; and for any run whose nodes
all still have templates, the reason component is none — in particular
when the workflow failed only because an executed leaf node ended badly. -/
theorem missing_template_structural_failure
    (g : WGraph) (dnr : List Nat)
    (hall : ∀ n ∈ g.nodes, n.hasTemplate = false)
    (hne : g.nodes ≠ []) :
    ((has_workflow_failed g dnr).1 = true ∧
      ∃ n ∈ g.nodes, (has_workflow_failed g dnr).2 = some (missingMsg n.id)) ∧
    ∀ (g2 : WGraph) (dnr2 : List Nat), (∀ n ∈ g2.nodes, n.hasTemplate = true) →
      (has_workflow_failed g2 dnr2).2 = none := by
  constructor
  · cases hn : g.nodes with
    | nil => exact absurd hn hne
    | cons n rest =>
        have hfind : g.nodes.find? (fun n => !n.hasTemplate) = some n := by
          rw [hn]
          apply List.find?_cons_of_pos
          simp [hall n (hn ▸ List.mem_cons_self n rest)]
        rw [has_workflow_failed, hfind]
        exact ⟨rfl, n, hn ▸ List.mem_cons_self n rest, rfl⟩
  · intro g2 dnr2 hall2
    have hfind : g2.nodes.find? (fun n => !n.hasTemplate) = none := by
      apply List.find?_eq_none.mpr
      intro n hn
      simp [hall2 n hn]
    rw [has_workflow_failed, hfind]
    split
    · rename_i n heq
      exact Option.noConfusion heq
    · split <;> rfl

/-- C3 witness: the relaunched five-node run with all templates deleted. -/
theorem missing_template_structural_failure_witness :
    (∀ n ∈ relaunchedGraph.nodes, n.hasTemplate = false) ∧
    relaunchedGraph.nodes ≠ [] ∧
    (((has_workflow_failed relaunchedGraph []).1 = true ∧
      ∃ n ∈ relaunchedGraph.nodes,
        (has_workflow_failed relaunchedGraph []).2 = some (missingMsg n.id)) ∧
     ∀ (g2 : WGraph) (dnr2 : List Nat), (∀ n ∈ g2.nodes, n.hasTemplate = true) →
       (has_workflow_failed g2 dnr2).2 = none) :=
  ⟨by decide, by decide,
   missing_template_structural_failure relaunchedGraph [] (by decide) (by decide)⟩

/-- C7: a root node — one with no incoming edges — is never marked
do-not-run by the DNR propagator, for every graph, every initial DNR set
and every assignment of node states. -/
theorem root_node_never_marked_dnr (g : WGraph) (dnr0 : List Nat) (i : Nat)
    (hroot : incoming g i = []) : i ∉ mark_dnr_nodes g dnr0 := by
  intro hmem
  simp only [mark_dnr_nodes, List.mem_filter] at hmem
  rcases mem_dnrFix g g.nodes.length dnr0 i hmem.1 with h1 | h1
  · have := hmem.2
    simp [h1] at this
  · exact h1 hroot

/-- C7 witness: node 0 of the five-node test graph is a root and is not
among the marked nodes. -/
theorem root_node_never_marked_dnr_witness :
    incoming failureBranchGraph 0 = [] ∧ 0 ∉ mark_dnr_nodes failureBranchGraph [] :=
  ⟨by decide, root_node_never_marked_dnr failureBranchGraph [] 0 (by decide)⟩

/-- C4: traversals are cycle-safe — for every graph the backward ancestor
walk yields a duplicate-free ancestor set that excludes the node itself
(so a self-referencing node never appears twice in its own ancestor set),
and on a self-nesting run `get_ancestor_workflows` returns the empty list
instead of looping. -/
theorem traversal_cycle_safety :
    (∀ (g : WGraph) (i : Nat), (ancestors g i).Nodup ∧ i ∉ ancestors g i) ∧
    ∀ (env : RunEnv) (s : Nat), env.parentOf s = some s →
      get_ancestor_workflows env s = [] := by
  constructor
  · intro g i
    have hwalk : (ancestorWalk g (parentIds g i) [i]).Nodup :=
      ancestorWalk_nodup g _ [i] (List.nodup_singleton i)
    refine ⟨hwalk.erase i, ?_⟩
    intro hmem
    exact ((hwalk.mem_erase_iff.mp hmem).1) rfl
  · intro env s hp
    rw [get_ancestor_workflows, hp, ancestorRunWalk]
    cases env.templateOf s with
    | none => rfl
    | some t => simp

/-- C4 witness: the two-node graph with a self-edge on node 0, and the
self-nesting run environment. -/
theorem traversal_cycle_safety_witness :
    ((ancestors selfLoopGraph 0).Nodup ∧ 0 ∉ ancestors selfLoopGraph 0) ∧
    selfEnv.parentOf 7 = some 7 ∧ get_ancestor_workflows selfEnv 7 = [] :=
  ⟨traversal_cycle_safety.1 selfLoopGraph 0, rfl,
   traversal_cycle_safety.2 selfEnv 7 rfl⟩

/-- C9: `VerbatimField` passes every value through unchanged in both
directions, so the two round-trip identities hold for every value. -/
theorem verbatim_field_round_trip {α : Type u} (x : α) :
    VerbatimField.to_representation (VerbatimField.to_internal_value x) = x ∧
    VerbatimField.to_internal_value (VerbatimField.to_representation x) = x :=
  ⟨rfl, rfl⟩

/-- C10: `CharNullField` accepts null input and coerces it to the empty
string: the mixin reports null as not-empty (so coercion runs instead of
the null short-cut), and `to_internal_value` maps null to `""`. -/
theorem char_null_field_null_to_empty_string :
    CharNullField.to_internal_value none = "" ∧
    NullFieldMixin.validate_empty_values CharNullField.allow_null none =
      Except.ok (false, none) := by
  constructor <;> rfl

end Awx
namespace Awx

/-- C5: a queued node with a single completed predecessor inherits the
predecessor's `ancestor_artifacts` merged first and the predecessor
job's own artifacts merged second — the job's output overriding inherited
keys on conflict — and with no run- or node-level variables its
`extra_vars` coincide with this inherited mapping, which is also saved as
the node's `ancestor_artifacts`. -/
theorem queued_node_inherits_parent_artifacts
    (p : WNode) (j : Job)
    (hpj : p.job = some j) (hterm : j.status.isTerminal = true)
    (haa : (p.ancestor_artifacts.map Prod.fst).Nodup)
    (hart : (j.artifacts.map Prod.fst).Nodup) :
    inheritedArtifacts [p] =
      dictUpdate (dictUpdate [] p.ancestor_artifacts) j.artifacts ∧
    (∀ k, (inheritedArtifacts [p]).lookup k =
        match j.artifacts.lookup k with
        | some v => some v
        | none => p.ancestor_artifacts.lookup k) ∧
    (∀ k, (get_job_kwargs_extra_vars [] [] [p]).lookup k =
        (inheritedArtifacts [p]).lookup k) := by
  have hdef : inheritedArtifacts [p] =
      dictUpdate (dictUpdate [] p.ancestor_artifacts) j.artifacts := by
    simp [inheritedArtifacts, hpj, hterm]
  refine ⟨hdef, ?_, ?_⟩
  · intro k
    rw [hdef, lookup_dictUpdate, lastLookup_eq_lookup _ _ hart, lookup_dictUpdate,
        lastLookup_eq_lookup _ _ haa]
    cases j.artifacts.lookup k <;> cases hp2 : p.ancestor_artifacts.lookup k <;> simp [hp2]
  · intro k
    have hnodup : ((inheritedArtifacts [p]).map Prod.fst).Nodup := by
      rw [hdef]
      exact nodupKeys_dictUpdate _ _ (nodupKeys_dictUpdate _ _ (by simp))
    rw [get_job_kwargs_extra_vars, lookup_dictUpdate, lastLookup_eq_lookup _ _ hnodup]
    cases hq : (inheritedArtifacts [p]).lookup k <;> simp [hq, dictUpdate]

/-- C5 witness: the predecessor of `test_inherit_ancestor_artifacts_from_job`
with ancestor_artifacts `{a: 42}` and job artifacts `{b: 43}` yields the
merged mapping `{a: 42, b: 43}`. -/
theorem queued_node_inherits_parent_artifacts_witness :
    (artifactParentEx.job = some artifactJobEx ∧
     artifactJobEx.status.isTerminal = true ∧
     (artifactParentEx.ancestor_artifacts.map Prod.fst).Nodup ∧
     (artifactJobEx.artifacts.map Prod.fst).Nodup) ∧
    (inheritedArtifacts [artifactParentEx] =
       dictUpdate (dictUpdate [] artifactParentEx.ancestor_artifacts) artifactJobEx.artifacts ∧
     (∀ k, (inheritedArtifacts [artifactParentEx]).lookup k =
         match artifactJobEx.artifacts.lookup k with
         | some v => some v
         | none => artifactParentEx.ancestor_artifacts.lookup k) ∧
     (∀ k, (get_job_kwargs_extra_vars [] [] [artifactParentEx]).lookup k =
         (inheritedArtifacts [artifactParentEx]).lookup k)) ∧
    inheritedArtifacts [artifactParentEx] = [("a", JVal.num 42), ("b", JVal.num 43)] ∧
    get_job_kwargs_extra_vars [] [] [artifactParentEx] =
      [("a", JVal.num 42), ("b", JVal.num 43)] :=
  ⟨⟨rfl, rfl, by decide, by decide⟩,
   queued_node_inherits_parent_artifacts artifactParentEx artifactJobEx rfl rfl
     (by decide) (by decide),
   by decide, by decide⟩

end Awx
namespace Awx

/-- C8 (counterexample): on the prompt data of
`test_combine_prompts_WFJT_to_node` — node limit "node_limit", run limit
"wj_limit", distinct node and run instance groups — the combined limit
and instance groups are the run's, not the node's, so the claimed
node-level precedence for limit and instance groups fails. -/
theorem combine_prompts_node_precedence_counterexample :
    ¬ ((combine_prompts wjPromptsEx nodePromptsEx).limit = nodePromptsEx.limit ∧
       (combine_prompts wjPromptsEx nodePromptsEx).instance_groups =
         nodePromptsEx.instance_groups) := by
  decide

/-- C8 (amended): when run-level and node-level prompts are combined,
extra_vars always union the two levels; a run-supplied limit overrides
the node's; tags keep node-level precedence (a node-supplied tag string
is used, the run's only filling in when the node has none); run-supplied
instance groups replace the node's; all run-level credentials are
applied, displacing node credentials of the same credential type while
node credentials of other types survive; and, as the exception,
run-level labels are not applied at all when the node defines its own
labels. -/
theorem combine_prompts_run_level_precedence
    (wj node : Prompts) (l : String)
    (hlim : wj.limit = some l)
    (hlabels : node.labels ≠ [])
    (higs : wj.instance_groups ≠ []) :
    (combine_prompts wj node).limit = some l ∧
    (∀ t, node.job_tags = some t → (combine_prompts wj node).job_tags = some t) ∧
    (node.job_tags = none → (combine_prompts wj node).job_tags = wj.job_tags) ∧
    (combine_prompts wj node).labels = node.labels ∧
    (combine_prompts wj node).instance_groups = wj.instance_groups ∧
    (∀ k, ((combine_prompts wj node).extra_vars.lookup k).isSome =
      ((node.extra_vars.lookup k).isSome || (wj.extra_vars.lookup k).isSome)) ∧
    (∀ c ∈ wj.credentials, c ∈ (combine_prompts wj node).credentials) ∧
    (∀ c ∈ node.credentials, (∀ w ∈ wj.credentials, w.ctype ≠ c.ctype) →
      c ∈ (combine_prompts wj node).credentials) ∧
    (∀ c ∈ (combine_prompts wj node).credentials,
      c ∈ node.credentials ∨ c ∈ wj.credentials) := by
  have hlab : node.labels.isEmpty = false := by
    cases hnl : node.labels
    · exact absurd hnl hlabels
    · rfl
  have hig : wj.instance_groups.isEmpty = false := by
    cases hni : wj.instance_groups
    · exact absurd hni higs
    · rfl
  refine ⟨?_, ?_, ?_, ?_, ?_, ?_, ?_, ?_, ?_⟩
  · simp [combine_prompts, hlim]
  · intro t ht
    simp [combine_prompts, ht]
  · intro ht
    simp [combine_prompts, ht]
  · simp [combine_prompts, hlab]
  · simp [combine_prompts, hig]
  · intro k
    simp only [combine_prompts]
    rw [lookup_dictUpdate]
    have hiso := lastLookup_isSome wj.extra_vars k
    cases hl : lastLookup wj.extra_vars k
    · rw [hl] at hiso
      cases hn : node.extra_vars.lookup k <;> simp [hn, ← hiso]
    · rw [hl] at hiso
      simp [← hiso]
  · intro c hc
    simp [combine_prompts, mergeCredentials, hc]
  · intro c hc hno
    simp only [combine_prompts, mergeCredentials, List.mem_append]
    left
    rw [List.mem_filter]
    refine ⟨hc, ?_⟩
    rw [Bool.not_eq_true']
    rw [List.any_eq_false]
    intro w hw
    simp [hno w hw]
  · intro c hc
    simp only [combine_prompts, mergeCredentials, List.mem_append, List.mem_filter] at hc
    rcases hc with ⟨h1, _⟩ | h1
    · exact Or.inl h1
    · exact Or.inr h1

/-- C8 witness: the concrete prompt data of the functional test, with the
combined results it asserts. -/
theorem combine_prompts_run_level_precedence_witness :
    (wjPromptsEx.limit = some "wj_limit" ∧ nodePromptsEx.labels ≠ [] ∧
     wjPromptsEx.instance_groups ≠ []) ∧
    ((combine_prompts wjPromptsEx nodePromptsEx).limit = some "wj_limit" ∧
     (∀ t, nodePromptsEx.job_tags = some t →
       (combine_prompts wjPromptsEx nodePromptsEx).job_tags = some t) ∧
     (nodePromptsEx.job_tags = none →
       (combine_prompts wjPromptsEx nodePromptsEx).job_tags = wjPromptsEx.job_tags) ∧
     (combine_prompts wjPromptsEx nodePromptsEx).labels = nodePromptsEx.labels ∧
     (combine_prompts wjPromptsEx nodePromptsEx).instance_groups =
       wjPromptsEx.instance_groups ∧
     (∀ k, (((combine_prompts wjPromptsEx nodePromptsEx).extra_vars.lookup k).isSome) =
       ((nodePromptsEx.extra_vars.lookup k).isSome ||
         (wjPromptsEx.extra_vars.lookup k).isSome)) ∧
     (∀ c ∈ wjPromptsEx.credentials,
       c ∈ (combine_prompts wjPromptsEx nodePromptsEx).credentials) ∧
     (∀ c ∈ nodePromptsEx.credentials,
       (∀ w ∈ wjPromptsEx.credentials, w.ctype ≠ c.ctype) →
         c ∈ (combine_prompts wjPromptsEx nodePromptsEx).credentials) ∧
     (∀ c ∈ (combine_prompts wjPromptsEx nodePromptsEx).credentials,
       c ∈ nodePromptsEx.credentials ∨ c ∈ wjPromptsEx.credentials)) ∧
    (combine_prompts wjPromptsEx nodePromptsEx).extra_vars =
      [("node_key", JVal.str "node_val"), ("wj_key", JVal.str "wj_val")] ∧
    (combine_prompts wjPromptsEx nodePromptsEx).credentials =
      [{ ctype := 1, cid := 1 }, { ctype := 2, cid := 3 }, { ctype := 0, cid := 4 }] :=
  ⟨⟨rfl, by decide, by decide⟩,
   combine_prompts_run_level_precedence wjPromptsEx nodePromptsEx "wj_limit" rfl
     (by decide) (by decide),
   by decide, by decide⟩

end Awx
namespace Awx

/-- C6: the run-wide effective artifacts are the union of the terminal
leaf jobs' artifacts — a key is present exactly when some terminal leaf
job wrote it — and when exactly two leaf jobs wrote a key, the value of
the job with the later finish timestamp wins. -/
theorem effective_artifacts_union_later_wins
    (g : WGraph) (dnr : List Nat) (k : String) (j1 j2 : Job)
    (hmem2 : j2 ∈ leafJobs g dnr)
    (h2 : (j2.artifacts.lookup k).isSome = true)
    (honly : ∀ j ∈ leafJobs g dnr, (j.artifacts.lookup k).isSome = true →
      j = j1 ∨ j = j2)
    (hlt : j1.finished < j2.finished)
    (hnodup : (j2.artifacts.map Prod.fst).Nodup) :
    (get_effective_artifacts g dnr).lookup k = j2.artifacts.lookup k ∧
    ∀ q : String, ((get_effective_artifacts g dnr).lookup q).isSome = true ↔
      ∃ j ∈ leafJobs g dnr, (j.artifacts.lookup q).isSome = true := by
  have hge : get_effective_artifacts g dnr =
      ((leafJobs g dnr).mergeSort (fun a b => a.finished ≤ b.finished)).foldl
        (fun acc j => dictUpdate acc j.artifacts) [] := rfl
  have hperm := List.mergeSort_perm (leafJobs g dnr) (fun a b => a.finished ≤ b.finished)
  have hsorted := @List.sorted_mergeSort Job
    (fun a b : Job => a.finished ≤ b.finished)
    (fun a b c hab hbc => by
      simp only [decide_eq_true_eq] at hab hbc ⊢
      omega)
    (fun a b => by
      simp only [Bool.or_eq_true, decide_eq_true_eq]
      omega)
    (leafJobs g dnr)
  constructor
  · have hl2 : j2 ∈ (leafJobs g dnr).mergeSort (fun a b => a.finished ≤ b.finished) :=
      hperm.mem_iff.mpr hmem2
    have hsome := lastJobWith_isSome _ k j2 hl2 h2
    obtain ⟨j, hj⟩ := Option.isSome_iff_exists.mp hsome
    have hjmem := lastJobWith_mem _ k j hj
    have hjj2 : j = j2 := by
      rcases honly j (hperm.mem_iff.mp hjmem.1) hjmem.2 with rfl | rfl
      · obtain ⟨left, l2, hsplit, hafter⟩ := lastJobWith_split _ k j hj
        have hin : j2 ∈ left ++ j :: l2 := hsplit ▸ hl2
        rcases List.mem_append.mp hin with hin1 | hin2
        · have hpair := hsplit ▸ hsorted
          rw [List.pairwise_append] at hpair
          have hle := hpair.2.2 j2 hin1 j (List.mem_cons_self _ _)
          simp only [decide_eq_true_eq] at hle
          omega
        · rcases List.mem_cons.mp hin2 with heq | hin3
          · rw [heq] at hlt
            omega
          · have := hafter j2 hin3
            rw [h2] at this
            exact Bool.noConfusion this
      · rfl
    rw [hge, lookup_artifact_foldl, hj, hjj2]
    show lastLookup j2.artifacts k = List.lookup k j2.artifacts
    exact lastLookup_eq_lookup _ _ hnodup
  · intro q
    rw [hge, lookup_artifact_foldl]
    cases hq : lastJobWith
        ((leafJobs g dnr).mergeSort (fun a b => a.finished ≤ b.finished)) q with
    | none =>
        simp only [List.lookup_nil, Option.isSome_none]
        constructor
        · intro hfalse
          exact Bool.noConfusion hfalse
        · rintro ⟨j, hjmem, hjk⟩
          have := lastJobWith_isSome _ q j (hperm.mem_iff.mpr hjmem) hjk
          rw [hq] at this
          exact absurd this (by simp)
    | some j =>
        have hjmem := lastJobWith_mem _ q j hq
        rw [lastLookup_isSome]
        simp only [hjmem.2, true_iff]
        exact ⟨j, hperm.mem_iff.mp hjmem.1, hjmem.2⟩

/-- C6 witness: two leaf jobs both wrote key `foooo`; the one that
finished later (value "zoo") wins, as in `test_precedence_based_on_time`. -/
theorem effective_artifacts_union_later_wins_witness :
    (laterLeafJobEx ∈ leafJobs twoLeafGraph [] ∧
     (laterLeafJobEx.artifacts.lookup "foooo").isSome = true ∧
     (∀ j ∈ leafJobs twoLeafGraph [],
       (j.artifacts.lookup "foooo").isSome = true →
         j = earlierLeafJobEx ∨ j = laterLeafJobEx) ∧
     earlierLeafJobEx.finished < laterLeafJobEx.finished ∧
     (laterLeafJobEx.artifacts.map Prod.fst).Nodup) ∧
    ((get_effective_artifacts twoLeafGraph []).lookup "foooo" =
       laterLeafJobEx.artifacts.lookup "foooo" ∧
     ∀ q : String, ((get_effective_artifacts twoLeafGraph []).lookup q).isSome = true ↔
       ∃ j ∈ leafJobs twoLeafGraph [], (j.artifacts.lookup q).isSome = true) ∧
    (get_effective_artifacts twoLeafGraph []).lookup "foooo" =
      some (JVal.str "zoo") :=
  have hthm := effective_artifacts_union_later_wins twoLeafGraph [] "foooo"
    earlierLeafJobEx laterLeafJobEx (by decide) (by decide) (by decide)
    (by decide) (by decide)
  ⟨⟨by decide, by decide, by decide, by decide, by decide⟩, hthm,
   by rw [hthm.1]; decide⟩

end Awx
namespace Awx

/-- C2 witness: the query count evaluated on the five-node test graph. -/
theorem init_graph_query_count_constant_witness :
    (init_graph_queries failureBranchGraph).length = 4 ∧
    (init_graph_queries failureBranchGraph).count DagQuery.nodesQuery = 1 ∧
    ∀ k : EdgeKind,
      (init_graph_queries failureBranchGraph).count (DagQuery.edgesQuery k) = 1 :=
  init_graph_query_count_constant failureBranchGraph

/-- C9 witness: both round trips evaluated at the value 42. -/
theorem verbatim_field_round_trip_witness :
    VerbatimField.to_representation (VerbatimField.to_internal_value 42) = 42 ∧
    VerbatimField.to_internal_value (VerbatimField.to_representation 42) = 42 :=
  verbatim_field_round_trip 42

end Awx
